import Mathlib

/-!
Verification of the StreaMaski core (src/main.py).

This file gives a shallow embedding, in Lean, of the process-lifecycle and
favorites-registry core of the StreaMaski desktop client, and proves the
specified properties about it.  Python strings are embedded as `String` or
`List Char`, Python `None`-able values as `Option`, and the nondeterminism of
the operating system (did the child terminate gracefully, did the HTTP request
fail, did the settings file save) as explicit parameters of the transition
functions.  Each embedded function keeps the name of the Python method it
translates, inside a namespace named after its Python class.
-/

namespace StreaMaski

/-! ## Character and list utilities

`isWordChar` is the character class `[a-zA-Z0-9_]` of the Python regex
`TWITCH_URL_PATTERN`; `isPySpace` is the ASCII whitespace set stripped by
Python `str.strip()` (and matched by the regex class `\s`); `lowerList` is
Python `str.lower()` restricted to ASCII, which is the only case folding the
embedded URLs and patterns exercise. -/

def isWordChar (c : Char) : Bool :=
  (97 ≤ c.toNat && c.toNat ≤ 122) || (65 ≤ c.toNat && c.toNat ≤ 90) ||
  (48 ≤ c.toNat && c.toNat ≤ 57) || c.toNat == 95

def isPySpace (c : Char) : Bool :=
  c.toNat == 32 || c.toNat == 9 || c.toNat == 10 || c.toNat == 13 ||
  c.toNat == 11 || c.toNat == 12

def lowerList (cs : List Char) : List Char := cs.map Char.toLower

/-- Python `str.strip()`: drop whitespace from both ends. -/
def pyStrip (cs : List Char) : List Char :=
  ((cs.dropWhile isPySpace).reverse.dropWhile isPySpace).reverse

/-- Case-insensitive literal match at the head of the input: on success,
return the remaining input.  Used to embed the fixed (case-insensitively
matched) parts of the compiled regexes. -/
def stripCI (ps cs : List Char) : Option (List Char) :=
  if lowerList ps = lowerList (cs.take ps.length) then some (cs.drop ps.length) else none

/-- Python substring containment, `needle in hay`. -/
def containsSub (n : List Char) : List Char → Bool
  | [] => n.isEmpty
  | c :: t => n.isPrefixOf (c :: t) || containsSub n t

/-- Case-insensitive substring search: `re.search` of a literal pattern
compiled with `re.IGNORECASE`. -/
def searchCI (pat content : List Char) : Bool :=
  containsSub (lowerList pat) (lowerList content)

def httpChars : List Char := ['h', 't', 't', 'p']

def schemeTail : List Char := [':', '/', '/']

def wwwDot : List Char := ['w', 'w', 'w', '.']

def twitchHost : List Char := ['t', 'w', 'i', 't', 'c', 'h', '.', 't', 'v', '/']

/-- The characters of the canonical URL head `https://www.twitch.tv/`. -/
def canonicalHead : List Char := httpChars ++ ['s'] ++ schemeTail ++ wwwDot ++ twitchHost

/-! ## AppState (src/main.py, class AppState)

One consolidated enumeration for both stream lifecycle states and stream
status values, exactly as in the source; `StreamState` and `StreamStatus` are
aliases of it there. -/

inductive AppState where
  | STOPPED
  | STARTING
  | RUNNING
  | STOPPING
  | ERROR
  | ONLINE
  | OFFLINE
  | UNKNOWN
  | CHECKING
  deriving DecidableEq

/-! ## ValidationManager (src/main.py, class ValidationManager)

`matchTwitchUrl` embeds the anchored regex
`^https?://(?:www\.)?twitch\.tv/([a-zA-Z0-9_]{3,25})/?$` compiled with
`re.IGNORECASE`: it returns the capture group (the handle) on a match.  The
staged greedy matching below is equivalent to the regex because each optional
piece (`s?`, `(?:www\.)?`) is followed by a literal its omission cannot also
begin, and the capture class excludes `/`, so backtracking never helps.  The
class-level result caches `_url_cache` and `_streamer_cache` are pure
memoization of these functions (the spec calls them unobservable), so the
embedding is the uncached computation.  All call sites apply the regex to the
stripped string, so the embedding composes `pyStrip` exactly where
`url.strip()` occurs. -/

namespace ValidationManager

def matchTwitchUrl (cs : List Char) : Option (List Char) :=
  match stripCI httpChars cs with
  | none => none
  | some cs1 =>
    match stripCI schemeTail ((stripCI ['s'] cs1).getD cs1) with
    | none => none
    | some cs3 =>
      match stripCI twitchHost ((stripCI wwwDot cs3).getD cs3) with
      | none => none
      | some cs5 =>
        if 3 ≤ (cs5.takeWhile isWordChar).length ∧ (cs5.takeWhile isWordChar).length ≤ 25 ∧
            (cs5.dropWhile isWordChar = [] ∨ cs5.dropWhile isWordChar = ['/'])
        then some (cs5.takeWhile isWordChar) else none

def msg_enter_url : String := "Please enter a Twitch stream URL"

def msg_not_twitch : String := "URL must be from Twitch (twitch.tv)"

def msg_no_protocol : String := "URL must start with http:// or https://"

def msg_invalid_format : String :=
  "Invalid Twitch URL format.\nExample: https://www.twitch.tv/streamer_name"

/-- `ValidationManager.validate_url` (src/main.py lines 674 to 698), without
its result cache. -/
def validate_url (url : String) : Bool × String :=
  if url = "" then (false, msg_enter_url)
  else
    match matchTwitchUrl (pyStrip url.data) with
    | some _ => (true, "")
    | none =>
      if !containsSub ("twitch.tv".data) (lowerList (pyStrip url.data)) then
        (false, msg_not_twitch)
      else if !(("http://".data).isPrefixOf (pyStrip url.data) ||
          ("https://".data).isPrefixOf (pyStrip url.data)) then (false, msg_no_protocol)
      else (false, msg_invalid_format)

/-- Python `str.capitalize()`: first character upper-cased, the rest
lower-cased (ASCII inputs only here). -/
def capitalize_chars : List Char → List Char
  | [] => []
  | c :: t => Char.toUpper c :: lowerList t

/-- `ValidationManager.extract_streamer_name` (src/main.py lines 700 to 715),
without its result cache. -/
def extract_streamer_name (url : String) : String :=
  if url = "" then ""
  else
    match matchTwitchUrl (pyStrip url.data) with
    | some h => String.mk (capitalize_chars h)
    | none => ""

/-- `ValidationManager.normalize_url` (src/main.py lines 717 to 723). -/
def normalize_url (url : String) : String :=
  if url = "" then ""
  else
    match matchTwitchUrl (pyStrip url.data) with
    | some h => String.mk (canonicalHead ++ lowerList h)
    | none => url

end ValidationManager

/-! ## StreamStatusChecker (src/main.py, class StreamStatusChecker)

`_check_via_web_scraping` issues one HTTP GET and classifies the response.
The embedding represents the outcome of the GET explicitly: a raised
`requests.RequestException`, any other raised exception, or a response with a
status code and a body.  The live and offline markers are the compiled
patterns of `_compile_patterns`; all but the viewer-count one are literal
substrings searched case-insensitively, and the viewer-count regex
`"viewerCount":\s*[1-9]\d*` is matched by `hasViewerCount`. -/

namespace StreamStatusChecker

/-- One position of the search for `"viewerCount":\s*[1-9]\d*`: the literal
head, then any whitespace, then a nonzero digit. -/
def viewerCountAt (cs : List Char) : Bool :=
  match stripCI ("\"viewerCount\":".data) cs with
  | none => false
  | some rest =>
    match rest.dropWhile isPySpace with
    | [] => false
    | c :: _ => 49 ≤ c.toNat && c.toNat ≤ 57

/-- `re.search` for the viewer-count pattern: try every start position. -/
def hasViewerCount : List Char → Bool
  | [] => false
  | c :: t => viewerCountAt (c :: t) || hasViewerCount t

def live_patterns_match (content : List Char) : Bool :=
  searchCI ("\"isLiveBroadcast\":true".data) content ||
  searchCI ("\"broadcastType\":\"live\"".data) content ||
  searchCI ("\"isLive\":true".data) content ||
  hasViewerCount content

def offline_patterns_match (content : List Char) : Bool :=
  searchCI ("\"isLiveBroadcast\":false".data) content ||
  searchCI ("\"broadcastType\":\"upload\"".data) content ||
  searchCI ("OfflineScreen".data) content

/-- Outcome of the single `session.get` call. -/
inductive HttpOutcome where
  | request_error
  | unexpected_error
  | response (status_code : Nat) (body : List Char)
  deriving DecidableEq

/-- `StreamStatusChecker._check_via_web_scraping` (src/main.py lines 201 to
242): 200 with a live marker is ONLINE, 200 with an offline marker is
OFFLINE, 200 with neither defaults to OFFLINE, any other status code is
UNKNOWN, and both exception handlers return UNKNOWN. -/
def check_via_web_scraping : HttpOutcome → AppState
  | HttpOutcome.request_error => AppState.UNKNOWN
  | HttpOutcome.unexpected_error => AppState.UNKNOWN
  | HttpOutcome.response code body =>
    if code = 200 then
      if live_patterns_match body then AppState.ONLINE
      else if offline_patterns_match body then AppState.OFFLINE
      else AppState.OFFLINE
    else AppState.UNKNOWN

end StreamStatusChecker

/-! ## StreamlinkService (src/main.py, class StreamlinkService) -/

namespace StreamlinkService

/-- `StreamlinkService.create_command` (src/main.py lines 463 to 470). -/
def create_command (path proxy url quality : String) : List String :=
  [path, "--twitch-proxy-playlist=" ++ proxy, url, quality]

end StreamlinkService

/-! ## StreamManager (src/main.py, class StreamManager)

The mutable fields of the class form `StreamManagerState`; the registered
callbacks are embedded as an event trace (every `_emit` and `_set_state`
appends an `Event`).  `start_stream` spawns `_run_stream` on a daemon thread:
the embedding records the spawned command in the `spawned` field of the
result instead of running it, since the claims below concern only the
synchronous behavior of `start`/`stop`/`switch`.  The outcome of the
termination attempt inside `stop_stream` (graceful terminate, kill after the
3-second wait timed out, or an exception raised and caught by the broad
handler) is a `StopOutcome` parameter; the OS-level actions taken in each
branch are recorded as events. -/

namespace StreamManager

inductive Event where
  | state_changed (s : AppState)
  | started (url : String) (quality : String)
  | stopped
  | error (msg : String)
  | terminate_child
  | kill_child
  | close_media_players
  deriving DecidableEq

structure StreamManagerState where
  state : AppState
  current_process : Option Nat
  manually_stopped : Bool
  deriving DecidableEq

/-- `StreamManager.is_running` (src/main.py lines 492 to 494): the state
equals RUNNING, and nothing else. -/
def is_running (s : StreamManagerState) : Bool := s.state == AppState.RUNNING

/-- Result of `start_stream`: return value, new state, events emitted
synchronously, and the command of the spawned monitor thread (if any). -/
structure StartResult where
  ret : Bool
  st : StreamManagerState
  events : List Event
  spawned : Option (List String)
  deriving DecidableEq

/-- `StreamManager.start_stream` (src/main.py lines 514 to 534).  `avail` is
the cached `streamlink.is_available()` answer; `path` and `proxy` are the
fields of the injected `StreamlinkService`. -/
def start_stream (avail : Bool) (path proxy : String) (s : StreamManagerState)
    (url quality : String) : StartResult :=
  if is_running s then ⟨false, s, [], none⟩
  else if !avail then
    ⟨false, s, [Event.error "Streamlink not found. Please install Streamlink."], none⟩
  else
    ⟨true, ⟨AppState.STARTING, s.current_process, false⟩,
      [Event.state_changed AppState.STARTING],
      some (StreamlinkService.create_command path proxy url quality)⟩

inductive StopOutcome where
  | graceful
  | timeout_forced
  | raised_exception
  deriving DecidableEq

/-- The OS-level actions of the `try` block of `stop_stream`, per outcome:
terminate; terminate then kill on timeout; or an exception caught (and only
logged) partway through. -/
def stop_attempt_events : StopOutcome → List Event
  | StopOutcome.graceful => [Event.terminate_child, Event.close_media_players]
  | StopOutcome.timeout_forced =>
    [Event.terminate_child, Event.kill_child, Event.close_media_players]
  | StopOutcome.raised_exception => [Event.terminate_child]

/-- `StreamManager.stop_stream` (src/main.py lines 536 to 559) together with
`_cleanup` (lines 641 to 647), which the `finally` clause always runs: set
STOPPING, attempt termination, then unconditionally set STOPPED, clear the
process handle, reset `manually_stopped` and emit the stopped event. -/
def stop_stream (outcome : StopOutcome) (s : StreamManagerState) :
    StreamManagerState × List Event :=
  if !is_running s || s.current_process.isNone then (s, [])
  else
    (⟨AppState.STOPPED, none, false⟩,
      Event.state_changed AppState.STOPPING ::
        (stop_attempt_events outcome ++
          [Event.state_changed AppState.STOPPED, Event.stopped]))

/-- `StreamManager.switch_stream` (src/main.py lines 507 to 512): stop only
if running, then start. -/
def switch_stream (avail : Bool) (path proxy : String) (outcome : StopOutcome)
    (s : StreamManagerState) (url quality : String) : StartResult :=
  if is_running s then
    let p := stop_stream outcome s
    let r := start_stream avail path proxy p.1 url quality
    ⟨r.ret, r.st, p.2 ++ r.events, r.spawned⟩
  else start_stream avail path proxy s url quality

/-- The sequential composition the specification compares `switch` against:
an unconditional `stop_stream()` followed by `start_stream(url, quality)`. -/
def stop_then_start (avail : Bool) (path proxy : String) (outcome : StopOutcome)
    (s : StreamManagerState) (url quality : String) : StartResult :=
  let p := stop_stream outcome s
  let r := start_stream avail path proxy p.1 url quality
  ⟨r.ret, r.st, p.2 ++ r.events, r.spawned⟩

end StreamManager

/-! ## QuickSwapManager (src/main.py, class QuickSwapManager)

`RegistryState` carries both the in-memory `self.streams` list and the
`quick_swap_streams` list held by the `SettingsManager` document
(`persisted`).  `_save_streams` calls `SettingsManager.set`, which assigns
and then returns the result of `save()`; whether that file write succeeds is
the explicit `save_ok` parameter.  On a successful save the persisted list
becomes the current in-memory list; on a failed save it is left as it was. -/

namespace QuickSwapManager

def MAX_SWAP_STREAMS : Nat := 4

structure RegistryState where
  streams : List String
  persisted : List String
  deriving DecidableEq

/-- `QuickSwapManager.is_full` (src/main.py lines 953 to 955). -/
def is_full (r : RegistryState) : Bool := MAX_SWAP_STREAMS ≤ r.streams.length

/-- `QuickSwapManager.add_stream` (src/main.py lines 869 to 881): reject an
empty url or a full registry, normalize, reject a duplicate, then append to
the in-memory list and return the result of `_save_streams()`.  Note that no
URL validation happens here: `_get_normalized_url` falls back to the input
unchanged when the pattern does not match. -/
def add_stream (save_ok : Bool) (r : RegistryState) (url : String) : Bool × RegistryState :=
  if url = "" || is_full r then (false, r)
  else
    if ValidationManager.normalize_url url ∈ r.streams then (false, r)
    else
      if save_ok then
        (true, ⟨r.streams ++ [ValidationManager.normalize_url url],
          r.streams ++ [ValidationManager.normalize_url url]⟩)
      else (false, ⟨r.streams ++ [ValidationManager.normalize_url url], r.persisted⟩)

/-- `QuickSwapManager.set_stream_status` (src/main.py lines 917 to 920), over
a status table embedded as a function from urls to statuses. -/
def set_stream_status (statuses : String → AppState) (url : String) (status : AppState) :
    String → AppState :=
  fun v => if v = ValidationManager.normalize_url url then status else statuses v

/-- The first, synchronous loop of `check_all_streams_status` (src/main.py
lines 927 to 931): set every stream to CHECKING. -/
def mark_all_checking (streams : List String) (statuses : String → AppState) :
    String → AppState :=
  streams.foldl (fun acc u => set_stream_status acc u AppState.CHECKING) statuses

/-- The callback trace of `check_all_streams_status` (src/main.py lines 922
to 944): nothing at all when the list is empty (early return); otherwise one
`(url, CHECKING)` callback per stream, synchronously and in list order,
followed by the per-stream final callbacks fired by the background thread
through `check_multiple_streams`, given here as the parameter `finals` since
their order is scheduler-dependent. -/
def check_all_trace (streams : List String) (finals : List (String × AppState)) :
    List (String × AppState) :=
  if streams.isEmpty then []
  else streams.map (fun u => (u, AppState.CHECKING)) ++ finals

end QuickSwapManager

/-! ## Helper lemmas -/

theorem char_eq_of_toNat_eq (a b : Char) (h : a.toNat = b.toNat) : a = b :=
  Char.eq_of_val_eq (UInt32.eq_of_toBitVec_eq (BitVec.eq_of_toNat_eq h))

theorem toNat_ofNat_of_valid (m : Nat) (h : Nat.isValidChar m) : (Char.ofNat m).toNat = m := by
  simp [Char.ofNat, h, Char.ofNatAux, Char.toNat, UInt32.toNat, BitVec.toNat_ofNatLt]

theorem toLower_toNat_of_upper (c : Char) (h : 65 ≤ c.toNat ∧ c.toNat ≤ 90) :
    (Char.toLower c).toNat = c.toNat + 32 := by
  unfold Char.toLower
  rw [if_pos h]
  exact toNat_ofNat_of_valid _ (Or.inl (by omega))

theorem toLower_toNat_of_not_upper (c : Char) (h : ¬(65 ≤ c.toNat ∧ c.toNat ≤ 90)) :
    (Char.toLower c).toNat = c.toNat := by
  unfold Char.toLower
  rw [if_neg h]

theorem isWordChar_toLower (c : Char) (h : isWordChar c = true) :
    isWordChar c.toLower = true := by
  simp only [isWordChar, Bool.or_eq_true, Bool.and_eq_true, decide_eq_true_eq,
    beq_iff_eq] at h ⊢
  by_cases hu : 65 ≤ c.toNat ∧ c.toNat ≤ 90
  · rw [toLower_toNat_of_upper c hu]; omega
  · rw [toLower_toNat_of_not_upper c hu]; omega

theorem toLower_idem (c : Char) : c.toLower.toLower = c.toLower := by
  by_cases hu : 65 ≤ c.toNat ∧ c.toNat ≤ 90
  · have h1 := toLower_toNat_of_upper c hu
    exact char_eq_of_toNat_eq _ _ (toLower_toNat_of_not_upper c.toLower (by rw [h1]; omega))
  · have h1 := toLower_toNat_of_not_upper c hu
    exact char_eq_of_toNat_eq _ _ (toLower_toNat_of_not_upper c.toLower (by rw [h1]; exact hu))

theorem isPySpace_of_word (c : Char) (h : isWordChar c = true) : isPySpace c = false := by
  simp only [isWordChar, Bool.or_eq_true, Bool.and_eq_true, decide_eq_true_eq, beq_iff_eq] at h
  simp only [isPySpace, Bool.or_eq_false_iff, beq_eq_false_iff_ne, ne_eq]
  omega

theorem lowerList_idem (h : List Char) : lowerList (lowerList h) = lowerList h := by
  unfold lowerList
  rw [List.map_map]
  exact List.map_congr_left (fun c _ => toLower_idem c)

theorem dropWhile_eq_self_of_none (p : Char → Bool) (l : List Char)
    (h : ∀ c ∈ l, p c = false) : l.dropWhile p = l := by
  cases l with
  | nil => rfl
  | cons a t => simp [List.dropWhile_cons, h a (by simp)]

theorem pyStrip_eq_self (cs : List Char) (h : ∀ c ∈ cs, isPySpace c = false) :
    pyStrip cs = cs := by
  unfold pyStrip
  rw [dropWhile_eq_self_of_none _ _ h,
    dropWhile_eq_self_of_none _ _ (fun c hc => h c (List.mem_reverse.mp hc)),
    List.reverse_reverse]

theorem stripCI_append (ps pre rest : List Char) (hlow : lowerList ps = lowerList pre)
    (hlen : ps.length = pre.length) : stripCI ps (pre ++ rest) = some rest := by
  unfold stripCI
  rw [hlen, List.take_left, List.drop_left, if_pos hlow]

theorem takeWhile_append_of_all (p : Char → Bool) (l1 l2 : List Char)
    (h : ∀ c ∈ l1, p c = true) : (l1 ++ l2).takeWhile p = l1 ++ l2.takeWhile p := by
  induction l1 with
  | nil => simp
  | cons a t ih =>
    simp [List.takeWhile_cons, h a (by simp), ih (fun c hc => h c (by simp [hc]))]

theorem dropWhile_append_of_all (p : Char → Bool) (l1 l2 : List Char)
    (h : ∀ c ∈ l1, p c = true) : (l1 ++ l2).dropWhile p = l2.dropWhile p := by
  induction l1 with
  | nil => simp
  | cons a t ih =>
    simp only [List.cons_append, List.dropWhile_cons, h a (by simp)]
    exact ih (fun c hc => h c (by simp [hc]))

namespace ValidationManager

/-- On a word-character handle `hm` followed by an empty tail or a single
slash, the embedded regex matches after the canonical head exactly when the
handle length is within 3 to 25, capturing the handle. -/
theorem matchTwitchUrl_canonical_eq (hm t : List Char) (hw : ∀ c ∈ hm, isWordChar c = true)
    (ht : t = [] ∨ t = ['/']) :
    matchTwitchUrl (canonicalHead ++ (hm ++ t)) =
      if 3 ≤ hm.length ∧ hm.length ≤ 25 then some hm else none := by
  have hhandle : (hm ++ t).takeWhile isWordChar = hm := by
    rw [takeWhile_append_of_all isWordChar hm t hw]
    rcases ht with h | h <;> simp [h, List.takeWhile, isWordChar]
  have hrest : (hm ++ t).dropWhile isWordChar = t := by
    rw [dropWhile_append_of_all isWordChar hm t hw]
    rcases ht with h | h <;> simp [h, List.dropWhile, isWordChar]
  have e1 : stripCI httpChars (canonicalHead ++ (hm ++ t)) =
      some (['s'] ++ (schemeTail ++ (wwwDot ++ (twitchHost ++ (hm ++ t))))) := by
    rw [show canonicalHead ++ (hm ++ t) =
      httpChars ++ (['s'] ++ (schemeTail ++ (wwwDot ++ (twitchHost ++ (hm ++ t))))) by
        simp [canonicalHead, List.append_assoc]]
    exact stripCI_append _ _ _ (by decide) (by decide)
  have e2 : stripCI ['s'] (['s'] ++ (schemeTail ++ (wwwDot ++ (twitchHost ++ (hm ++ t))))) =
      some (schemeTail ++ (wwwDot ++ (twitchHost ++ (hm ++ t)))) :=
    stripCI_append _ _ _ (by decide) (by decide)
  have e3 : stripCI schemeTail (schemeTail ++ (wwwDot ++ (twitchHost ++ (hm ++ t)))) =
      some (wwwDot ++ (twitchHost ++ (hm ++ t))) :=
    stripCI_append _ _ _ (by decide) (by decide)
  have e4 : stripCI wwwDot (wwwDot ++ (twitchHost ++ (hm ++ t))) =
      some (twitchHost ++ (hm ++ t)) :=
    stripCI_append _ _ _ (by decide) (by decide)
  have e5 : stripCI twitchHost (twitchHost ++ (hm ++ t)) = some (hm ++ t) :=
    stripCI_append _ _ _ rfl rfl
  unfold matchTwitchUrl
  simp only [e1, e2, e3, e4, e5, Option.getD_some, hhandle, hrest]
  by_cases hb : 3 ≤ hm.length ∧ hm.length ≤ 25
  · rw [if_pos ⟨hb.1, hb.2, ht⟩, if_pos hb]
  · rw [if_neg (fun hcon => hb ⟨hcon.1, hcon.2.1⟩), if_neg hb]

/-- A successful match yields a handle of 3 to 25 word characters. -/
theorem matchTwitchUrl_inv (cs h : List Char) (he : matchTwitchUrl cs = some h) :
    (∀ c ∈ h, isWordChar c = true) ∧ 3 ≤ h.length ∧ h.length ≤ 25 := by
  unfold matchTwitchUrl at he
  split at he
  · exact absurd he (by simp)
  · split at he
    · exact absurd he (by simp)
    · split at he
      · exact absurd he (by simp)
      · split at he
        · rename_i cond
          obtain rfl := Option.some.inj he
          exact ⟨fun c hc => List.mem_takeWhile_imp hc, cond.1, cond.2.1⟩
        · exact absurd he (by simp)

theorem canonical_no_space (h : List Char) (hw : ∀ c ∈ h, isWordChar c = true) :
    ∀ c ∈ canonicalHead ++ lowerList h, isPySpace c = false := by
  intro c hc
  rcases List.mem_append.mp hc with hc | hc
  · exact (by decide : ∀ c ∈ canonicalHead, isPySpace c = false) c hc
  · obtain ⟨a, ha, rfl⟩ := List.mem_map.mp hc
    exact isPySpace_of_word _ (isWordChar_toLower a (hw a ha))

/-- `normalize_url` maps the canonical form of a handle to itself. -/
theorem normalize_canonical (h : List Char) (hw : ∀ c ∈ h, isWordChar c = true)
    (h3 : 3 ≤ h.length) (h25 : h.length ≤ 25) :
    normalize_url (String.mk (canonicalHead ++ lowerList h)) =
      String.mk (canonicalHead ++ lowerList h) := by
  have hne : String.mk (canonicalHead ++ lowerList h) ≠ "" := by
    intro hcon
    have hnil : (canonicalHead ++ lowerList h) = [] := congrArg String.data hcon
    simp [canonicalHead, httpChars] at hnil
  unfold normalize_url
  rw [if_neg hne]
  have hdata : (String.mk (canonicalHead ++ lowerList h)).data = canonicalHead ++ lowerList h := rfl
  rw [hdata, pyStrip_eq_self _ (canonical_no_space h hw)]
  have hmm : matchTwitchUrl (canonicalHead ++ lowerList h) = some (lowerList h) := by
    have hcall := matchTwitchUrl_canonical_eq (lowerList h) []
      (fun c hc => by
        obtain ⟨a, ha, rfl⟩ := List.mem_map.mp hc
        exact isWordChar_toLower a (hw a ha))
      (Or.inl rfl)
    rw [List.append_nil] at hcall
    rw [hcall, if_pos ⟨by simpa [lowerList] using h3, by simpa [lowerList] using h25⟩]
  simp only [hmm]
  rw [lowerList_idem]

/-- `normalize_url` is idempotent on every input. -/
theorem normalize_url_idem (url : String) :
    normalize_url (normalize_url url) = normalize_url url := by
  by_cases hemp : url = ""
  · simp [hemp, normalize_url]
  · cases e : matchTwitchUrl (pyStrip url.data) with
    | none =>
      have h1 : normalize_url url = url := by
        unfold normalize_url; rw [if_neg hemp, e]
      rw [h1, h1]
    | some h =>
      have h1 : normalize_url url = String.mk (canonicalHead ++ lowerList h) := by
        unfold normalize_url; rw [if_neg hemp, e]
      obtain ⟨hw, h3, h25⟩ := matchTwitchUrl_inv _ _ e
      rw [h1, normalize_canonical h hw h3 h25]

end ValidationManager

namespace StreamManager

theorem is_running_iff (s : StreamManagerState) :
    is_running s = true ↔ s.state = AppState.RUNNING := by
  simp [is_running]

theorem stop_stream_of_not_running (outcome : StopOutcome) (s : StreamManagerState)
    (h : is_running s = false) : stop_stream outcome s = (s, []) := by
  unfold stop_stream
  rw [if_pos (by simp [h])]

end StreamManager

/-! ## Claim theorems -/

/-- C1 (counterexample): the claim that `start` returns false and leaves the
state unchanged in every state other than Stopped fails on the code: with the
state STOPPING (and the tool available), `start_stream` is accepted, returns
true and moves the state to STARTING, because the guard `is_running` only
checks for RUNNING. -/
theorem C1_counterexample :
    (⟨AppState.STOPPING, some 1, true⟩ : StreamManager.StreamManagerState).state ≠
      AppState.STOPPED ∧
    (StreamManager.start_stream true ("streamlink") ("https://eu.luminous.dev")
      ⟨AppState.STOPPING, some 1, true⟩ ("https://www.twitch.tv/xqc") ("best")).ret = true ∧
    (StreamManager.start_stream true ("streamlink") ("https://eu.luminous.dev")
      ⟨AppState.STOPPING, some 1, true⟩ ("https://www.twitch.tv/xqc") ("best")).st.state =
      AppState.STARTING := by
  exact ⟨by decide, rfl, rfl⟩

/-- C1 (amended): `start_stream` rejects a start, returning false, leaving
the state untouched and emitting nothing, exactly when the current state is
RUNNING; in any other state, the Starting, Stopping and Error states
included, a start with the tool available is accepted, returns true and
moves the state to STARTING.  The single-session guarantee is therefore
enforced against the Running state only, not against every non-Stopped
state. -/
theorem C1_start_guard_amended :
    (∀ (avail : Bool) (path proxy : String) (s : StreamManager.StreamManagerState)
      (url quality : String), StreamManager.is_running s = true →
      StreamManager.start_stream avail path proxy s url quality = ⟨false, s, [], none⟩) ∧
    (∀ (path proxy : String) (s : StreamManager.StreamManagerState) (url quality : String),
      s.state ≠ AppState.RUNNING →
      (StreamManager.start_stream true path proxy s url quality).ret = true ∧
      (StreamManager.start_stream true path proxy s url quality).st.state =
        AppState.STARTING) := by
  constructor
  · intro avail path proxy s url quality hrun
    unfold StreamManager.start_stream
    rw [if_pos hrun]
  · intro path proxy s url quality hns
    have hnr : StreamManager.is_running s = false := by
      simp [StreamManager.is_running, hns]
    unfold StreamManager.start_stream
    rw [if_neg (by simp [hnr])]
    exact ⟨rfl, rfl⟩

/-- C1 (witness): the amended guard at concrete inputs: a start in the
RUNNING state is rejected unchanged, and a start in the ERROR state is
accepted. -/
theorem C1_witness :
    StreamManager.start_stream true ("s") ("p") ⟨AppState.RUNNING, some 1, false⟩ ("u") ("q") =
      ⟨false, ⟨AppState.RUNNING, some 1, false⟩, [], none⟩ ∧
    (StreamManager.start_stream true ("s") ("p") ⟨AppState.ERROR, none, false⟩ ("u") ("q")).ret =
      true :=
  ⟨C1_start_guard_amended.1 true ("s") ("p") _ ("u") ("q") (by decide),
   (C1_start_guard_amended.2 ("s") ("p") ⟨AppState.ERROR, none, false⟩ ("u") ("q")
     (by decide)).1⟩

/-- C3: on a running session with a live process handle, `stop_stream`
always reaches the STOPPED state with the process handle cleared and the
stopped event emitted, whichever way the termination attempt went: graceful
terminate, forced kill after the wait timed out, or an exception swallowed
by the broad handler — the `finally` cleanup runs in every branch. -/
theorem C3_stop_reaches_stopped (outcome : StreamManager.StopOutcome)
    (s : StreamManager.StreamManagerState)
    (hrun : StreamManager.is_running s = true) (hproc : s.current_process.isSome = true) :
    (StreamManager.stop_stream outcome s).1.state = AppState.STOPPED ∧
    (StreamManager.stop_stream outcome s).1.current_process = none ∧
    StreamManager.Event.stopped ∈ (StreamManager.stop_stream outcome s).2 := by
  have hne : s.current_process ≠ none := Option.isSome_iff_ne_none.mp hproc
  unfold StreamManager.stop_stream
  rw [if_neg (by simp [hrun, hne])]
  refine ⟨rfl, rfl, ?_⟩
  simp

/-- C3 (witness): stopping a concrete running session through the forced
path reaches STOPPED with the handle cleared and the stopped event. -/
theorem C3_witness :
    (StreamManager.stop_stream StreamManager.StopOutcome.timeout_forced
      ⟨AppState.RUNNING, some 1, false⟩).1.state = AppState.STOPPED ∧
    (StreamManager.stop_stream StreamManager.StopOutcome.timeout_forced
      ⟨AppState.RUNNING, some 1, false⟩).1.current_process = none ∧
    StreamManager.Event.stopped ∈ (StreamManager.stop_stream
      StreamManager.StopOutcome.timeout_forced ⟨AppState.RUNNING, some 1, false⟩).2 :=
  C3_stop_reaches_stopped StreamManager.StopOutcome.timeout_forced
    ⟨AppState.RUNNING, some 1, false⟩ (by decide) (by decide)

/-- C9: `switch_stream` is extensionally equal to `stop_stream` followed by
`start_stream`: same return value, same final state, same event trace and
same spawned command, for every prior state and every termination outcome.
The two coincide because `stop_stream` is a no-op, emitting nothing, when
the session is not running. -/
theorem C9_switch_eq_stop_then_start (avail : Bool) (path proxy : String)
    (outcome : StreamManager.StopOutcome) (s : StreamManager.StreamManagerState)
    (url quality : String) :
    StreamManager.switch_stream avail path proxy outcome s url quality =
      StreamManager.stop_then_start avail path proxy outcome s url quality := by
  unfold StreamManager.switch_stream StreamManager.stop_then_start
  by_cases hrun : StreamManager.is_running s = true
  · rw [if_pos hrun]
  · have hnr : StreamManager.is_running s = false := by
      simpa using hrun
    rw [if_neg (by simp [hnr]), StreamManager.stop_stream_of_not_running outcome s hnr]
    simp

/-- C2 (counterexample): the claim that `add` returns false whenever the url
is invalid fails on the code: the string without the platform domain is
rejected by `validate_url`, yet `add_stream` accepts it on an empty registry
(with the save succeeding), appends it verbatim and returns true, because
`add_stream` never validates and `normalize_url` returns a non-matching
input unchanged. -/
theorem C2_counterexample :
    (ValidationManager.validate_url ("notaurl")).1 = false ∧
    QuickSwapManager.add_stream true ⟨[], []⟩ ("notaurl") =
      (true, ⟨["notaurl"], ["notaurl"]⟩) := by
  exact ⟨by decide, by decide⟩

/-- C2 (amended): `add_stream` returns false and changes nothing (neither
the in-memory nor the persisted list) whenever the registry already holds 4
entries, or the canonical form of the url is already present, or the url is
the empty string; in particular an add on a full registry is rejected
without mutation, and a registry of at most 4 entries never grows past 4.
Rejection of other invalid urls is not performed by `add_stream` itself but
by its UI callers, which validate before calling it. -/
theorem C2_add_capacity_amended :
    (∀ (save_ok : Bool) (r : QuickSwapManager.RegistryState) (url : String),
      4 ≤ r.streams.length → QuickSwapManager.add_stream save_ok r url = (false, r)) ∧
    (∀ (save_ok : Bool) (r : QuickSwapManager.RegistryState) (url : String),
      ValidationManager.normalize_url url ∈ r.streams →
      QuickSwapManager.add_stream save_ok r url = (false, r)) ∧
    (∀ (save_ok : Bool) (r : QuickSwapManager.RegistryState),
      QuickSwapManager.add_stream save_ok r "" = (false, r)) ∧
    (∀ (save_ok : Bool) (r : QuickSwapManager.RegistryState) (url : String),
      r.streams.length ≤ 4 →
      (QuickSwapManager.add_stream save_ok r url).2.streams.length ≤ 4) := by
  refine ⟨?_, ?_, ?_, ?_⟩
  · intro save_ok r url hfull
    unfold QuickSwapManager.add_stream
    rw [if_pos (by simp [QuickSwapManager.is_full, QuickSwapManager.MAX_SWAP_STREAMS, hfull])]
  · intro save_ok r url hdup
    unfold QuickSwapManager.add_stream
    by_cases hguard : (url = "" || QuickSwapManager.is_full r) = true
    · rw [if_pos hguard]
    · rw [if_neg hguard, if_pos hdup]
  · intro save_ok r
    unfold QuickSwapManager.add_stream
    rw [if_pos (by simp)]
  · intro save_ok r url hlen
    unfold QuickSwapManager.add_stream
    by_cases hguard : (url = "" || QuickSwapManager.is_full r) = true
    · rw [if_pos hguard]; exact hlen
    · have hlt : r.streams.length < 4 := by
        simp only [Bool.or_eq_true, QuickSwapManager.is_full,
          QuickSwapManager.MAX_SWAP_STREAMS, decide_eq_true_eq] at hguard
        omega
      rw [if_neg hguard]
      by_cases hdup : ValidationManager.normalize_url url ∈ r.streams
      · rw [if_pos hdup]; exact hlen
      · rw [if_neg hdup]
        by_cases hs : save_ok = true
        · rw [hs, if_pos rfl]
          simp only [List.length_append, List.length_singleton]
          omega
        · rw [if_neg hs]
          simp only [List.length_append, List.length_singleton]
          omega

/-- C2 (witness): concrete instances of the amended statement: a 5th add on
a full registry of 4 is rejected without touching either list, and the
result still holds 4 entries. -/
theorem C2_witness :
    QuickSwapManager.add_stream true
      ⟨["https://www.twitch.tv/aaa", "https://www.twitch.tv/bbb",
        "https://www.twitch.tv/ccc", "https://www.twitch.tv/ddd"],
       ["https://www.twitch.tv/aaa", "https://www.twitch.tv/bbb",
        "https://www.twitch.tv/ccc", "https://www.twitch.tv/ddd"]⟩
      ("https://www.twitch.tv/eee") =
      (false, ⟨["https://www.twitch.tv/aaa", "https://www.twitch.tv/bbb",
        "https://www.twitch.tv/ccc", "https://www.twitch.tv/ddd"],
       ["https://www.twitch.tv/aaa", "https://www.twitch.tv/bbb",
        "https://www.twitch.tv/ccc", "https://www.twitch.tv/ddd"]⟩) :=
  C2_add_capacity_amended.1 true _ ("https://www.twitch.tv/eee") (by decide)

/-- C10: on a non-full registry, a nonempty non-duplicate url is appended
(normalized) to the in-memory list and the call returns the outcome of the
persistence attempt: on a successful save the persisted list becomes the
appended list, while on a failed save `add_stream` returns false with the
appended url still present in memory and the persisted list untouched — the
operation is not atomic. -/
theorem C10_add_not_atomic (save_ok : Bool) (r : QuickSwapManager.RegistryState)
    (url : String) (hne : url ≠ "") (hnotfull : ¬ 4 ≤ r.streams.length)
    (hdup : ValidationManager.normalize_url url ∉ r.streams) :
    (QuickSwapManager.add_stream save_ok r url).1 = save_ok ∧
    (QuickSwapManager.add_stream save_ok r url).2.streams =
      r.streams ++ [ValidationManager.normalize_url url] ∧
    (save_ok = true → (QuickSwapManager.add_stream save_ok r url).2.persisted =
      r.streams ++ [ValidationManager.normalize_url url]) ∧
    (save_ok = false → (QuickSwapManager.add_stream save_ok r url).2.persisted =
      r.persisted) := by
  unfold QuickSwapManager.add_stream
  rw [if_neg (by simp [hne, QuickSwapManager.is_full, QuickSwapManager.MAX_SWAP_STREAMS,
    hnotfull]), if_neg hdup]
  by_cases hs : save_ok = true
  · rw [hs, if_pos rfl]
    exact ⟨rfl, rfl, fun _ => rfl, fun hcon => absurd hcon (by simp)⟩
  · rw [if_neg hs]
    have hs0 : save_ok = false := by simpa using hs
    exact ⟨hs0.symm, rfl, fun hcon => absurd hcon (by simp [hs0]), fun _ => rfl⟩

/-- C10 (witness): on an empty registry with one persisted entry, a failed
save leaves the appended url in memory, returns false, and leaves the
persisted list as it was. -/
theorem C10_witness :
    (QuickSwapManager.add_stream false ⟨[], ["p"]⟩ ("https://www.twitch.tv/xqc")).1 = false ∧
    (QuickSwapManager.add_stream false ⟨[], ["p"]⟩ ("https://www.twitch.tv/xqc")).2.streams =
      ["https://www.twitch.tv/xqc"] ∧
    (QuickSwapManager.add_stream false ⟨[], ["p"]⟩ ("https://www.twitch.tv/xqc")).2.persisted =
      ["p"] := by
  have h := C10_add_not_atomic false ⟨[], ["p"]⟩ ("https://www.twitch.tv/xqc")
    (by decide) (by decide) (by decide)
  refine ⟨h.1, ?_, h.2.2.2 rfl⟩
  rw [h.2.1]
  decide

/-- C5: the status classifier yields UNKNOWN on every non-200 response and
on every network failure or unexpected exception, and on a 200 response
whose body matches none of the live markers and none of the offline markers
(ambiguous content) it yields OFFLINE, never UNKNOWN. -/
theorem C5_status_classification :
    (∀ (code : Nat) (body : List Char), code ≠ 200 →
      StreamStatusChecker.check_via_web_scraping
        (StreamStatusChecker.HttpOutcome.response code body) = AppState.UNKNOWN) ∧
    StreamStatusChecker.check_via_web_scraping
      StreamStatusChecker.HttpOutcome.request_error = AppState.UNKNOWN ∧
    StreamStatusChecker.check_via_web_scraping
      StreamStatusChecker.HttpOutcome.unexpected_error = AppState.UNKNOWN ∧
    (∀ body : List Char, StreamStatusChecker.live_patterns_match body = false →
      StreamStatusChecker.offline_patterns_match body = false →
      StreamStatusChecker.check_via_web_scraping
        (StreamStatusChecker.HttpOutcome.response 200 body) = AppState.OFFLINE) := by
  refine ⟨?_, rfl, rfl, ?_⟩
  · intro code body hcode
    simp only [StreamStatusChecker.check_via_web_scraping]
    rw [if_neg hcode]
  · intro body hlive hoff
    simp only [StreamStatusChecker.check_via_web_scraping]
    simp [hlive, hoff]

/-- C5 (witness): a 404 response is UNKNOWN and a 200 response with an
ambiguous body is OFFLINE. -/
theorem C5_witness :
    StreamStatusChecker.check_via_web_scraping
      (StreamStatusChecker.HttpOutcome.response 404 []) = AppState.UNKNOWN ∧
    StreamStatusChecker.check_via_web_scraping
      (StreamStatusChecker.HttpOutcome.response 200 ("hello world".data)) =
      AppState.OFFLINE :=
  ⟨C5_status_classification.1 404 [] (by decide),
   C5_status_classification.2.2.2 ("hello world".data) (by decide) (by decide)⟩

namespace ValidationManager

theorem canonical_url_no_space (h t : List Char) (hw : ∀ c ∈ h, isWordChar c = true)
    (ht : t = [] ∨ t = ['/']) : ∀ c ∈ canonicalHead ++ (h ++ t), isPySpace c = false := by
  intro c hc
  rcases List.mem_append.mp hc with hc | hc
  · exact (by decide : ∀ c ∈ canonicalHead, isPySpace c = false) c hc
  · rcases List.mem_append.mp hc with hc | hc
    · exact isPySpace_of_word _ (hw c hc)
    · rcases ht with h0 | h0 <;> rw [h0] at hc
      · exact absurd hc (by simp)
      · have hcc : c = '/' := by simpa using hc
        rw [hcc]; decide

theorem canonical_url_ne_empty (l : List Char) :
    String.mk (canonicalHead ++ l) ≠ "" := by
  intro hcon
  have hnil : (canonicalHead ++ l) = [] := congrArg String.data hcon
  simp [canonicalHead, httpChars] at hnil

/-- Evaluating the embedded regex on the canonical head followed by a handle
and an optional trailing slash, as every call site does after stripping. -/
theorem matchTwitchUrl_strip_canonical (h t : List Char)
    (hw : ∀ c ∈ h, isWordChar c = true) (ht : t = [] ∨ t = ['/']) :
    matchTwitchUrl (pyStrip (String.mk (canonicalHead ++ (h ++ t))).data) =
      if 3 ≤ h.length ∧ h.length ≤ 25 then some h else none := by
  have hdata : (String.mk (canonicalHead ++ (h ++ t))).data = canonicalHead ++ (h ++ t) := rfl
  rw [hdata, pyStrip_eq_self _ (canonical_url_no_space h t hw ht),
    matchTwitchUrl_canonical_eq h t hw ht]

end ValidationManager

/-- C6: `normalize_url` is idempotent: for every input accepted by
`validate_url`, normalizing twice equals normalizing once.  (The proof goes
through the stronger fact `normalize_url_idem`, which holds for every input:
a non-matching input is returned unchanged and fails to match again, and a
matching input becomes the canonical lowercase form, which the pattern maps
to itself.) -/
theorem C6_normalize_idempotent (url : String)
    (_hvalid : (ValidationManager.validate_url url).1 = true) :
    ValidationManager.normalize_url (ValidationManager.normalize_url url) =
      ValidationManager.normalize_url url :=
  ValidationManager.normalize_url_idem url

/-- C6 (witness): idempotence at a concrete valid mixed-case url. -/
theorem C6_witness :
    (ValidationManager.validate_url ("HTTPS://www.Twitch.TV/XqC")).1 = true ∧
    ValidationManager.normalize_url
      (ValidationManager.normalize_url ("HTTPS://www.Twitch.TV/XqC")) =
      ValidationManager.normalize_url ("HTTPS://www.Twitch.TV/XqC") :=
  ⟨by decide, C6_normalize_idempotent ("HTTPS://www.Twitch.TV/XqC") (by decide)⟩

/-- C7: for every handle of 3 to 25 word characters, in any case mix and
with or without a trailing slash, `validate_url` accepts the platform URL
built from it, returning `(true, "")`; and for every word-character handle
of length 0 to 2 or 26 and above, `validate_url` rejects the URL. -/
theorem C7_validate_handle_lengths :
    (∀ (h t : List Char), (∀ c ∈ h, isWordChar c = true) → 3 ≤ h.length →
      h.length ≤ 25 → (t = [] ∨ t = ['/']) →
      ValidationManager.validate_url (String.mk (canonicalHead ++ (h ++ t))) = (true, "")) ∧
    (∀ h : List Char, (∀ c ∈ h, isWordChar c = true) →
      h.length ≤ 2 ∨ 26 ≤ h.length →
      (ValidationManager.validate_url (String.mk (canonicalHead ++ (h ++ [])))).1 = false) := by
  constructor
  · intro h t hw h3 h25 ht
    unfold ValidationManager.validate_url
    rw [if_neg (ValidationManager.canonical_url_ne_empty (h ++ t)),
      ValidationManager.matchTwitchUrl_strip_canonical h t hw ht, if_pos ⟨h3, h25⟩]
  · intro h hw hlen
    unfold ValidationManager.validate_url
    rw [if_neg (ValidationManager.canonical_url_ne_empty (h ++ [])),
      ValidationManager.matchTwitchUrl_strip_canonical h [] hw (Or.inl rfl),
      if_neg (by rcases hlen with hl | hl <;> omega)]
    split
    · rename_i val heq
      exact absurd heq (by simp)
    · split
      · rfl
      · split <;> rfl

/-- C7 (witness): the canonical URL of the 3-character handle is accepted
with an empty reason, with and without the trailing slash, and the
2-character and 26-character handles are rejected. -/
theorem C7_witness :
    ValidationManager.validate_url
      (String.mk (canonicalHead ++ ("xqc".data ++ []))) = (true, "") ∧
    ValidationManager.validate_url
      (String.mk (canonicalHead ++ ("XqC".data ++ ['/']))) = (true, "") ∧
    (ValidationManager.validate_url
      (String.mk (canonicalHead ++ ("ab".data ++ [])))).1 = false ∧
    (ValidationManager.validate_url
      (String.mk (canonicalHead ++ ("abcdefghijklmnopqrstuvwxyz".data ++ [])))).1 = false :=
  ⟨C7_validate_handle_lengths.1 ("xqc".data) [] (by decide) (by decide) (by decide)
      (Or.inl rfl),
   C7_validate_handle_lengths.1 ("XqC".data) ['/'] (by decide) (by decide) (by decide)
      (Or.inr rfl),
   C7_validate_handle_lengths.2 ("ab".data) (by decide) (Or.inl (by decide)),
   C7_validate_handle_lengths.2 ("abcdefghijklmnopqrstuvwxyz".data) (by decide)
      (Or.inr (by decide))⟩

/-- C8: `extract_streamer_name` returns the capitalized handle (first
character upper-cased, the rest lower-cased) of every valid platform URL,
whatever the case mix of the handle in the input, and returns the empty
string on every url rejected by `validate_url`; on the concrete URLs with
handles `xqc` and `xQC` it returns `Xqc`. -/
theorem C8_extract_capitalized :
    (∀ (h t : List Char), (∀ c ∈ h, isWordChar c = true) → 3 ≤ h.length →
      h.length ≤ 25 → (t = [] ∨ t = ['/']) →
      ValidationManager.extract_streamer_name (String.mk (canonicalHead ++ (h ++ t))) =
        String.mk (ValidationManager.capitalize_chars h)) ∧
    (∀ url : String, (ValidationManager.validate_url url).1 = false →
      ValidationManager.extract_streamer_name url = "") ∧
    ValidationManager.extract_streamer_name ("https://www.twitch.tv/xqc") = "Xqc" ∧
    ValidationManager.extract_streamer_name ("https://www.twitch.tv/xQC") = "Xqc" := by
  refine ⟨?_, ?_, by decide, by decide⟩
  · intro h t hw h3 h25 ht
    unfold ValidationManager.extract_streamer_name
    rw [if_neg (ValidationManager.canonical_url_ne_empty (h ++ t)),
      ValidationManager.matchTwitchUrl_strip_canonical h t hw ht, if_pos ⟨h3, h25⟩]
  · intro url hinvalid
    by_cases hemp : url = ""
    · unfold ValidationManager.extract_streamer_name
      rw [if_pos hemp]
    · cases e : ValidationManager.matchTwitchUrl (pyStrip url.data) with
      | some h =>
        exact absurd hinvalid (by
          unfold ValidationManager.validate_url
          rw [if_neg hemp, e]
          simp)
      | none =>
        unfold ValidationManager.extract_streamer_name
        rw [if_neg hemp, e]

namespace QuickSwapManager

/-- The marking loop only ever writes CHECKING, so it preserves CHECKING. -/
theorem mark_all_checking_preserve (streams : List String) (st : String → AppState)
    (u : String) (h : st u = AppState.CHECKING) :
    mark_all_checking streams st u = AppState.CHECKING := by
  induction streams generalizing st with
  | nil => exact h
  | cons a tl ih =>
    show mark_all_checking tl (set_stream_status st a AppState.CHECKING) u = AppState.CHECKING
    apply ih
    unfold set_stream_status
    by_cases hv : u = ValidationManager.normalize_url a
    · rw [if_pos hv]
    · rw [if_neg hv]; exact h

/-- Every stream of a normalized list is marked CHECKING by the loop. -/
theorem mark_all_checking_mem (streams : List String) (st : String → AppState)
    (u : String) (hmem : u ∈ streams)
    (hnorm : ∀ v ∈ streams, ValidationManager.normalize_url v = v) :
    mark_all_checking streams st u = AppState.CHECKING := by
  induction streams generalizing st with
  | nil => cases hmem
  | cons a tl ih =>
    show mark_all_checking tl (set_stream_status st a AppState.CHECKING) u = AppState.CHECKING
    by_cases hu : u = a
    · apply mark_all_checking_preserve
      unfold set_stream_status
      rw [hnorm a (by simp), if_pos hu]
    · have hu2 : u ∈ tl := by
        rcases List.mem_cons.mp hmem with h0 | h0
        · exact absurd h0 hu
        · exact h0
      exact ih _ hu2 (fun v hv => hnorm v (List.mem_cons_of_mem a hv))

end QuickSwapManager

/-- C4: `check_all_streams_status` on a registry of N occupied slots (whose
stored urls are in canonical form, as `add_stream` guarantees) first marks
every one of them CHECKING and fires exactly N `(url, CHECKING)` callbacks
synchronously, before the background thread fires anything: in the callback
trace, an entry carries CHECKING exactly when its position is below N, so
every CHECKING callback precedes every final callback; and each channel gets
a CHECKING callback strictly before its own final (non-CHECKING) callback.
`finals` is the scheduler-ordered list of final callbacks, constrained only
by what `check_multiple_streams` guarantees: exactly one per stream, each
carrying a status other than CHECKING. -/
theorem C4_check_all_two_phase (streams : List String)
    (finals : List (String × AppState)) (st0 : String → AppState)
    (hperm : List.Perm (finals.map Prod.fst) streams)
    (hfin : ∀ p ∈ finals, p.2 ≠ AppState.CHECKING)
    (hnorm : ∀ u ∈ streams, ValidationManager.normalize_url u = u) :
    (QuickSwapManager.check_all_trace streams finals).countP
        (fun p => p.2 == AppState.CHECKING) = streams.length ∧
    (∀ (i : Nat) (p : String × AppState),
      (QuickSwapManager.check_all_trace streams finals)[i]? = some p →
      (p.2 = AppState.CHECKING ↔ i < streams.length)) ∧
    (∀ u ∈ streams, ∃ (i j : Nat) (st : AppState), i < j ∧
      (QuickSwapManager.check_all_trace streams finals)[i]? = some (u, AppState.CHECKING) ∧
      st ≠ AppState.CHECKING ∧
      (QuickSwapManager.check_all_trace streams finals)[j]? = some (u, st)) ∧
    (∀ u ∈ streams, QuickSwapManager.mark_all_checking streams st0 u = AppState.CHECKING) := by
  by_cases hemp : streams = []
  · subst hemp
    have htr : QuickSwapManager.check_all_trace [] finals = [] := rfl
    refine ⟨by rw [htr]; rfl, ?_, ?_, ?_⟩
    · intro i p hp
      rw [htr] at hp
      simp at hp
    · intro u hu
      cases hu
    · intro u hu
      cases hu
  · have htr : QuickSwapManager.check_all_trace streams finals =
        streams.map (fun u => (u, AppState.CHECKING)) ++ finals := by
      unfold QuickSwapManager.check_all_trace
      rw [if_neg (by simp [hemp])]
    have hmaplen : (streams.map (fun u => (u, AppState.CHECKING))).length = streams.length :=
      List.length_map _ _
    refine ⟨?_, ?_, ?_, fun u hu => QuickSwapManager.mark_all_checking_mem _ _ _ hu hnorm⟩
    · rw [htr, List.countP_append]
      have h1 : (streams.map (fun u => (u, AppState.CHECKING))).countP
          (fun p => p.2 == AppState.CHECKING) =
          (streams.map (fun u => (u, AppState.CHECKING))).length := by
        rw [List.countP_eq_length]
        intro p hp
        obtain ⟨u, _, rfl⟩ := List.mem_map.mp hp
        rfl
      have h2 : finals.countP (fun p => p.2 == AppState.CHECKING) = 0 := by
        rw [List.countP_eq_zero]
        intro p hp
        simpa using hfin p hp
      rw [h1, h2, hmaplen]
      rfl
    · intro i p hp
      rw [htr, List.getElem?_append] at hp
      by_cases hi : i < (streams.map (fun u => (u, AppState.CHECKING))).length
      · rw [if_pos hi] at hp
        have hpm : p ∈ streams.map (fun u => (u, AppState.CHECKING)) := by
          obtain ⟨hlt, he⟩ := List.getElem?_eq_some.mp hp
          exact he ▸ List.getElem_mem hlt
        obtain ⟨u, _, rfl⟩ := List.mem_map.mp hpm
        simpa using by rw [← hmaplen]; exact hi
      · rw [if_neg hi] at hp
        have hpf : p ∈ finals := by
          obtain ⟨hlt, he⟩ := List.getElem?_eq_some.mp hp
          exact he ▸ List.getElem_mem hlt
        constructor
        · intro hcon
          exact absurd hcon (hfin p hpf)
        · intro hcon
          rw [← hmaplen] at hcon
          exact absurd hcon hi
    · intro u hu
      obtain ⟨i, hilt, hig⟩ := List.getElem_of_mem hu
      have humem : u ∈ finals.map Prod.fst := hperm.mem_iff.mpr hu
      obtain ⟨q, hq, hq1⟩ := List.mem_map.mp humem
      obtain ⟨k, hklt, hkg⟩ := List.getElem_of_mem hq
      refine ⟨i, streams.length + k, q.2, by omega, ?_, hfin q hq, ?_⟩
      · rw [htr, List.getElem?_append, if_pos (by rw [hmaplen]; exact hilt)]
        rw [List.getElem?_map, List.getElem?_eq_getElem hilt, hig]
        rfl
      · rw [htr, List.getElem?_append, if_neg (by omega)]
        rw [show streams.length + k - (streams.map (fun u => (u, AppState.CHECKING))).length = k
          by rw [hmaplen]; omega]
        rw [List.getElem?_eq_getElem hklt, hkg]
        rw [show q = (u, q.2) from by rw [← hq1]]

/-- C4 (witness): a registry of two canonical urls with the final statuses
arriving in swapped order: two CHECKING callbacks, CHECKING exactly in the
first two positions, each channel checked before resolved, and both slots
marked CHECKING. -/
theorem C4_witness :
    (QuickSwapManager.check_all_trace
      ["https://www.twitch.tv/aaa", "https://www.twitch.tv/bbb"]
      [("https://www.twitch.tv/bbb", AppState.OFFLINE),
       ("https://www.twitch.tv/aaa", AppState.ONLINE)]).countP
      (fun p => p.2 == AppState.CHECKING) = 2 ∧
    QuickSwapManager.mark_all_checking
      ["https://www.twitch.tv/aaa", "https://www.twitch.tv/bbb"]
      (fun _ => AppState.UNKNOWN) ("https://www.twitch.tv/bbb") = AppState.CHECKING := by
  have h := C4_check_all_two_phase
    ["https://www.twitch.tv/aaa", "https://www.twitch.tv/bbb"]
    [("https://www.twitch.tv/bbb", AppState.OFFLINE),
     ("https://www.twitch.tv/aaa", AppState.ONLINE)]
    (fun _ => AppState.UNKNOWN) (by decide) (by decide) (by decide)
  exact ⟨h.1, h.2.2.2 ("https://www.twitch.tv/bbb") (by decide)⟩

/-- C8 (witness): the mixed-case handle `aBC_9` is extracted capitalized
from its canonical URL. -/
theorem C8_witness :
    ValidationManager.extract_streamer_name
      (String.mk (canonicalHead ++ ("aBC_9".data ++ []))) =
      String.mk (ValidationManager.capitalize_chars ("aBC_9".data)) ∧
    ValidationManager.extract_streamer_name ("x") = "" := by
  refine ⟨C8_extract_capitalized.1 ("aBC_9".data) [] (by decide) (by decide) (by decide)
    (Or.inl rfl), C8_extract_capitalized.2.1 ("x") (by decide)⟩

end StreaMaski
